import Mathlib

/-!
Shallow embedding of the bidirectional batch-synchronization engine found in
src/salesforceintegrationcode.py and src/sftpintegrationcode.py.

Python records and dataframe cells are dynamically typed; we embed the value
universe actually exercised by the engine as the inductive type CellVal.
Association lists stand in for Python dicts (keys unique in practice), and
pandas dataframes are modelled column-wise as lists of (name, cells) pairs.
-/

/-- A Python value as it appears in a record or dataframe cell.  The date
constructor carries the strftime renderings of the value under the two formats
the engine uses (SF_DATE_FORMAT and SF_DATETIME_FORMAT); a Python list value
carries its elements as their textual renderings, which is sufficient because
every non-empty list raises a TypeError before any per-element processing is
reached (source line 1333). -/
inductive CellVal where
  | none
  | str (s : String)
  | int (n : Int)
  | boolean (b : Bool)
  | date (dateFmt : String) (datetimeFmt : String)
  | pylist (elems : List String)
deriving DecidableEq, Repr

/-- A record, i.e. one row of a dataframe converted with to_dict: an
association list from column name to value. -/
abbrev PyRec := List (String × CellVal)

/-- Association-list lookup, the embedding of dict access d.get(k). -/
def lookupKV {β : Type} : List (String × β) → String → Option β
  | [], _ => Option.none
  | (k, v) :: rest, key => if k = key then some v else lookupKV rest key

/-- Dict access collapsing a stored Python None into absence: record.get(k)
followed by an is-not-None test treats a missing key and a None value the
same way. -/
def getPy (r : PyRec) (k : String) : Option CellVal :=
  match lookupKV r k with
  | some CellVal.none => Option.none
  | some v => some v
  | Option.none => Option.none

/-- Python truthiness of a cell value. -/
def truthy : CellVal → Bool
  | .none => false
  | .str s => !(s == "")
  | .int n => !(n == 0)
  | .boolean b => b
  | .date _ _ => true
  | .pylist es => !es.isEmpty

/-- Whether the value has a Python len, i.e. hasattr(value, "__len__"). -/
def hasLen : CellVal → Bool
  | .str _ => true
  | .pylist _ => true
  | _ => false

/-- Python len(value) for sized values (0 otherwise; only used under hasLen). -/
def lenOf : CellVal → Nat
  | .str s => s.length
  | .pylist es => es.length
  | _ => 0

/-- Whether the value is a Python list instance. -/
def isList : CellVal → Bool
  | .pylist _ => true
  | _ => false

/-- Whether the value is a datetime.datetime or datetime.date instance. -/
def isDate : CellVal → Bool
  | .date _ _ => true
  | _ => false

/-- Python unicode(x): the textual rendering of a value.  unicode(None) is the
four-character string None; booleans render as True and False; the rendering
of datetimes and list containers is abstracted (no claim inspects it). -/
def pyStr : CellVal → String
  | .none => "None"
  | .str s => s
  | .int n => toString n
  | .boolean b => if b then "True" else "False"
  | .date _ dt => dt
  | .pylist es => "[" ++ String.intercalate ", " es ++ "]"

/-- The embedding of pandas Series.unique(): deduplicate keeping the first
occurrence of each value, in order. -/
def pdUnique {α : Type} [DecidableEq α] : List α → List α :=
  go []
where
  /-- Worker carrying the set of already-seen values. -/
  go (seen : List α) : List α → List α
  | [] => []
  | v :: rest => if v ∈ seen then go seen rest else v :: go (v :: seen) rest

theorem pdUnique.mem_go {α : Type} [DecidableEq α] (seen : List α) (l : List α) (v : α) :
    v ∈ pdUnique.go seen l ↔ v ∈ l ∧ v ∉ seen := by
  induction l generalizing seen with
  | nil => simp [pdUnique.go]
  | cons u rest ih =>
    by_cases h : u ∈ seen
    · rw [pdUnique.go, if_pos h, ih]
      constructor
      · rintro ⟨hv, hs⟩; exact ⟨List.mem_cons_of_mem _ hv, hs⟩
      · rintro ⟨hv, hs⟩
        rcases List.mem_cons.mp hv with rfl | hv
        · exact absurd h hs
        · exact ⟨hv, hs⟩
    · rw [pdUnique.go, if_neg h]
      constructor
      · intro hv
        rcases List.mem_cons.mp hv with rfl | hv
        · exact ⟨List.mem_cons_self _ _, h⟩
        · rcases (ih _).mp hv with ⟨h1, h2⟩
          refine ⟨List.mem_cons_of_mem _ h1, fun hs => h2 (List.mem_cons_of_mem _ hs)⟩
      · rintro ⟨hv, hs⟩
        rcases List.mem_cons.mp hv with rfl | hv
        · exact List.mem_cons_self _ _
        · by_cases hvu : v = u
          · subst hvu; exact List.mem_cons_self _ _
          · exact List.mem_cons_of_mem _ ((ih _).mpr ⟨hv, by
              intro hx
              rcases List.mem_cons.mp hx with h1 | h1
              · exact hvu h1
              · exact hs h1⟩)

theorem mem_pdUnique {α : Type} [DecidableEq α] (l : List α) (v : α) :
    v ∈ pdUnique l ↔ v ∈ l := by
  rw [pdUnique, pdUnique.mem_go]; simp

/-- Python sep.join(items). -/
def pyJoin (sep : String) : List String → String
  | [] => ""
  | [x] => x
  | x :: xs => x ++ sep ++ pyJoin sep xs

/-- Escape single quotes for embedding a string literal in a SOQL where
clause: the replace call on source line 938. -/
def escapeSingleQuotes (s : String) : String :=
  String.mk (s.data.flatMap fun c => if c = '\x27' then ['\\', '\x27'] else [c])

/-! ## Predicate / query builder (SalesforceAPIWrapper._sf_build_where_clauses) -/

/-- Python tuple comparison on the (internal key, salesforce name) pairs of a
field mapping, as used by sorted(listitems(field_mapping)) on source line 918:
lexicographic, primarily on the internal key. -/
def pairLe (a b : String × String) : Prop :=
  a.1 < b.1 ∨ (a.1 = b.1 ∧ a.2 ≤ b.2)

instance : DecidableRel pairLe := fun a b =>
  decidable_of_iff (a.1 < b.1 ∨ (a.1 = b.1 ∧ a.2 ≤ b.2)) Iff.rfl

instance : IsTotal (String × String) pairLe where
  total a b := by
    rcases lt_trichotomy a.1 b.1 with h | h | h
    · exact Or.inl (Or.inl h)
    · rcases le_total a.2 b.2 with h2 | h2
      · exact Or.inl (Or.inr ⟨h, h2⟩)
      · exact Or.inr (Or.inr ⟨h.symm, h2⟩)
    · exact Or.inr (Or.inl h)

instance : IsTrans (String × String) pairLe where
  trans a b c hab hbc := by
    rcases hab with h1 | ⟨e1, l1⟩
    · rcases hbc with h2 | ⟨e2, _⟩
      · exact Or.inl (h1.trans h2)
      · exact Or.inl (e2 ▸ h1)
    · rcases hbc with h2 | ⟨e2, l2⟩
      · exact Or.inl (e1 ▸ h2)
      · exact Or.inr ⟨e1.trans e2, l1.trans l2⟩

instance : IsAntisymm (String × String) pairLe where
  antisymm a b hab hba := by
    rcases hab with h1 | ⟨e1, l1⟩
    · rcases hba with h2 | ⟨e2, _⟩
      · exact absurd (h1.trans h2) (lt_irrefl _)
      · exact absurd h1 (e2 ▸ lt_irrefl _)
    · rcases hba with h2 | ⟨_, l2⟩
      · exact absurd h2 (e1 ▸ lt_irrefl _)
      · exact Prod.ext e1 (le_antisymm l1 l2)

/-- The iteration order of sorted(listitems(field_mapping)): a stable sort of
the (internal key, salesforce name) pairs under Python tuple comparison. -/
def sortPairs (fm : List (String × String)) : List (String × String) :=
  fm.insertionSort pairLe

/-- One comparison term of a predicate, per the type dispatch on source lines
921-939: booleans unquoted as TRUE/FALSE, dates formatted (with at-least
semantics for LastModifiedDate), numbers unquoted, everything else quoted with
single quotes escaped. -/
def whereItem (sfName : String) (v : CellVal) : Option String :=
  match v with
  | .none => Option.none
  | .boolean b => some (sfName ++ " = " ++ (if b then "TRUE" else "FALSE"))
  | .date _ dts =>
      if sfName = "LastModifiedDate" then some (sfName ++ " >= " ++ dts)
      else some (sfName ++ " = " ++ "\x27" ++ dts ++ "\x27")
  | .int n => some (sfName ++ " = " ++ toString n)
  | v => some (sfName ++ " = " ++ "\x27" ++ escapeSingleQuotes (pyStr v) ++ "\x27")

/-- The list of comparison terms produced for one candidate record: the field
mapping is iterated in sorted order and null-valued (or missing) fields are
skipped. -/
def whereItemsForRecord (record : PyRec) (fm : List (String × String)) : List String :=
  (sortPairs fm).filterMap fun kv =>
    match getPy record kv.1 with
    | Option.none => Option.none
    | some v => whereItem kv.2 v

/-- One predicate: the AND-conjunction of the comparison terms, parenthesised
(source line 943). -/
def mkClause (items : List String) : String :=
  "(" ++ pyJoin " AND " items ++ ")"

/-- The loop body of _sf_build_where_clauses (source lines 909-954), with the
current accumulated clause and the list of finished clauses threaded
explicitly, written as the exact if-expansion of the loop body.  The outer
test is the top-of-loop flush of lines 910-913 (over-long accumulator emitted
as a chunk before processing the record); a record yielding no comparison
terms is skipped entirely (leaving any pending accumulated text unflushed if
it is the last record, line 941); otherwise its predicate is OR-joined onto
the accumulator, which is emitted once its length exceeds maxLen or at the
final record (line 952). -/
def sfWhereAux (fm : List (String × String)) (maxLen : Nat) :
    List PyRec → String → List String → List String
  | [], _, acc => acc
  | r :: rest, cw, acc =>
      if maxLen < cw.length then
        if whereItemsForRecord r fm = [] then
          sfWhereAux fm maxLen rest "" (acc ++ [cw])
        else
          if maxLen < (mkClause (whereItemsForRecord r fm)).length ∨ rest = [] then
            sfWhereAux fm maxLen rest "" (acc ++ [cw] ++ [mkClause (whereItemsForRecord r fm)])
          else
            sfWhereAux fm maxLen rest (mkClause (whereItemsForRecord r fm)) (acc ++ [cw])
      else
        if whereItemsForRecord r fm = [] then
          sfWhereAux fm maxLen rest cw acc
        else
          if cw = "" then
            if maxLen < (mkClause (whereItemsForRecord r fm)).length ∨ rest = [] then
              sfWhereAux fm maxLen rest "" (acc ++ [mkClause (whereItemsForRecord r fm)])
            else
              sfWhereAux fm maxLen rest (mkClause (whereItemsForRecord r fm)) acc
          else
            if maxLen < (cw ++ " OR " ++ mkClause (whereItemsForRecord r fm)).length ∨ rest = []
            then
              sfWhereAux fm maxLen rest ""
                (acc ++ [cw ++ " OR " ++ mkClause (whereItemsForRecord r fm)])
            else
              sfWhereAux fm maxLen rest (cw ++ " OR " ++ mkClause (whereItemsForRecord r fm)) acc

/-- SF limits the allowed length of WHERE queries (class constant, source
line 684). -/
def MAX_WHERE_CLAUSE : Nat := 3500

/-- SalesforceAPIWrapper._sf_build_where_clauses: assemble OR-chunked WHERE
clauses for a list of candidate records under a field mapping. -/
def sf_build_where_clauses (search_values : List PyRec)
    (field_mapping : List (String × String)) : List String :=
  sfWhereAux field_mapping MAX_WHERE_CLAUSE search_values "" []

/-! ## query_sf argument validation (source lines 747-783) -/

/-- Python truthiness of an optional collection argument: absent (None) and
empty collections are both falsy. -/
def truthyOptList {α : Type} : Option (List α) → Bool
  | Option.none => false
  | some l => !l.isEmpty

/-- The argument-validation and where-clause-selection prefix of
SalesforceAPIWrapper.query_sf: raises ValueError when neither a prebuilt
where_clauses list nor both search_values and field_mapping are supplied;
otherwise returns the list of where clauses the query loop will run.  The
network interaction that follows is outside this prefix. -/
def query_sf (where_clauses : Option (List String))
    (search_values : Option (List PyRec))
    (field_mapping : Option (List (String × String))) : Except String (List String) :=
  if where_clauses = Option.none ∧
      !(truthyOptList search_values && truthyOptList field_mapping) then
    .error "Must supply either an explicit where clause or both search_values and fields_mapping."
  else
    match where_clauses with
    | some wc => .ok wc
    | Option.none =>
        .ok (sf_build_where_clauses (search_values.getD []) (field_mapping.getD []))

/-! ## Batch upsert engine (run_upsert_to_sf, _run_upsert_chunk) -/

instance {ε α : Type} [DecidableEq ε] [DecidableEq α] : DecidableEq (Except ε α) := fun a b =>
  match a, b with
  | .error e1, .error e2 =>
      if h : e1 = e2 then isTrue (by rw [h]) else isFalse (by intro hc; cases hc; exact h rfl)
  | .ok v1, .ok v2 =>
      if h : v1 = v2 then isTrue (by rw [h]) else isFalse (by intro hc; cases hc; exact h rfl)
  | .error _, .ok _ => isFalse (by intro hc; cases hc)
  | .ok _, .error _ => isFalse (by intro hc; cases hc)

/-- The two transport-level exception classes caught by run_upsert_to_sf
(source line 999): a malformed request rejected outright, or a connectivity
failure. -/
inductive TransportFault where
  | malformedRequest
  | connectionError
deriving DecidableEq, Repr

/-- One entry of the raw response list returned by the bulk upsert client
(shape documented on source lines 1076-1095). -/
structure SFResp where
  id : Option String
  success : Bool
  created : Bool
deriving DecidableEq, Repr

/-- One entry of the per-record outcome list produced by _run_upsert_chunk
(shape documented on source line 1042). -/
structure UpsertOutcomeRec where
  success : Bool
  quorum_id : Option CellVal
  sf_id : Option String
deriving DecidableEq, Repr

/-- Removal of the internal bookkeeping key from a record before
transmission: the pop on source line 1048. -/
def stripQuorumKey (r : PyRec) : PyRec :=
  r.filter fun kv => decide (kv.1 ≠ "quorum_side_primary_key")

/-- Reduction of one (quorum id, raw response) pair to an outcome entry
(source lines 1098-1136): a response is a success only when its success flag
is set and it carries a truthy id. -/
def recordOneResult (qid : Option CellVal) (r : SFResp) : UpsertOutcomeRec :=
  if r.success && (match r.id with | some s => !(s == "") | Option.none => false) then
    { success := true, quorum_id := qid, sf_id := r.id }
  else
    { success := false, quorum_id := qid, sf_id := Option.none }

/-- SalesforceAPIWrapper._run_upsert_chunk.  The external world is supplied as
two oracles: net gives the bulk client response (or transport fault) for the
nth submission, and oneNet abstracts the one-at-a-time submission used for the
ContentNote model, whose per-record try/except (source lines 1164-1219)
guarantees exactly one response dict per record and swallows every exception.
A count mismatch between inputs and responses is only logged (source lines
1065-1072); the outcome list is the positional zip of the two. -/
def run_upsert_chunk (net : Nat → List PyRec → String → Except TransportFault (List SFResp))
    (oneNet : PyRec → SFResp) (callIdx : Nat) (salesforce_model : String)
    (to_upsert_chunked : List PyRec) (match_on : String) :
    Except TransportFault (List UpsertOutcomeRec) := do
  let quorum_id_list := to_upsert_chunked.map fun r => getPy r "quorum_side_primary_key"
  let send_list := to_upsert_chunked.map stripQuorumKey
  let upsert_result_list ←
    if salesforce_model = "ContentNote" then pure (send_list.map oneNet)
    else net callIdx send_list match_on
  pure (List.zipWith recordOneResult quorum_id_list upsert_result_list)

/-- Worker for chunked_list, structurally recursive on a fuel argument so
that the definition evaluates by kernel reduction; the fuel starts at the
list length and at least one element is consumed per step, so the
fuel-exhaustion branch is unreachable. -/
def chunkedListGo {α : Type} : Nat → List α → Nat → List (List α)
  | _, [], _ => []
  | 0, l, _ => [l]
  | fuel + 1, x :: xs, n =>
      (x :: xs).take (max n 1) :: chunkedListGo fuel ((x :: xs).drop (max n 1)) n

/-- Modelled from the spec: the chunked_list helper partitioning the outgoing
record list into consecutive chunks of at most the given size, in order, is
repository code not present under src (spec sections 4.4 and 8: ordered
UpsertChunks of at most maxChunkSize, ceil of M over N many chunks).  A zero
chunk size is clamped to one so the partition is well defined. -/
def chunked_list {α : Type} (l : List α) (n : Nat) : List (List α) :=
  chunkedListGo l.length l n

/-- The chunk-processing loop of run_upsert_to_sf (source lines 986-997): the
chunks are submitted strictly in order; the first transport fault stops the
loop with overall success false and only the previously accumulated outcome
entries. -/
def run_upsert_go (net : Nat → List PyRec → String → Except TransportFault (List SFResp))
    (oneNet : PyRec → SFResp) (salesforce_model : String) (match_on : String) :
    List (List PyRec) → Nat → List UpsertOutcomeRec → Bool × List UpsertOutcomeRec
  | [], _, acc => (true, acc)
  | c :: cs, idx, acc =>
      match run_upsert_chunk net oneNet idx salesforce_model c match_on with
      | .error _ => (false, acc)
      | .ok rs => run_upsert_go net oneNet salesforce_model match_on cs (idx + 1) (acc ++ rs)

/-- Maximum number of records for the bulk API (class constant, source
line 683). -/
def SF_API_MAX_BATCH_SIZE : Nat := 10000

/-- The falsy-match_on default of source lines 975-976. -/
def defaultMatchOn (m : String) : String :=
  if m = "" then "Id" else m

/-- SalesforceAPIWrapper.run_upsert_to_sf: chunk the outgoing records, submit
chunk by chunk, stop at the first transport fault. -/
def run_upsert_to_sf (net : Nat → List PyRec → String → Except TransportFault (List SFResp))
    (oneNet : PyRec → SFResp) (salesforce_model : String) (external_list : List PyRec)
    (max_batch_size : Nat) (match_on : String) : Bool × List UpsertOutcomeRec :=
  run_upsert_go net oneNet salesforce_model (defaultMatchOn match_on)
    (chunked_list external_list max_batch_size) 0 []

/-! ## Identifier reconciler (NewSalesforceIntegration.send_external_df_to_external,
source lines 281-345) -/

/-- The per-entity configuration consulted when deciding where newly assigned
external identifiers are persisted. -/
structure EntityConfig where
  storeIdsInQuorum : Bool
  hasCustomSlug : Bool
  inIdDictionary : Bool
deriving DecidableEq, Repr

/-- The identifier pairs extracted on source line 314: outcome entries whose
quorum id and sf id are both non-null. -/
def idUpdatePairs (results : List UpsertOutcomeRec) : List (CellVal × String) :=
  results.filterMap fun r =>
    match r.quorum_id, r.sf_id with
    | some q, some s => some (q, s)
    | _, _ => Option.none

/-- NewSalesforceIntegration.send_external_df_to_external, downstream of the
upsert call: given the upsert result, decide where to persist the new
identifier pairs.  The error case carries the orphaned pairs, modelling the
notification with the dataframe attached (source lines 330-335) followed by
the ValueError raise (source line 336). -/
def send_external_df_to_external (cfg : EntityConfig) (success : Bool)
    (results : List UpsertOutcomeRec) : Except (List (CellVal × String)) Bool :=
  if success then
    if !cfg.storeIdsInQuorum then .ok true
    else
      let pairs := idUpdatePairs results
      if pairs = [] then .ok true
      else if cfg.hasCustomSlug then .ok true
      else if cfg.inIdDictionary then .ok true
      else .error pairs
  else .ok false

/-! ## Type normalizer / validator (SalesforceAPIWrapper.normalize_sf_field_types,
source lines 1281-1434) -/

/-- The per-field schema entry assembled by get_sf_field_definition_dict
(source lines 1238-1279), restricted to the members the normalizer reads. -/
structure FieldDef where
  type_ : String
  length : Nat
  picklist : Option (List String)
deriving DecidableEq, Repr

/-- A validation error recorded by the normalizer, one constructor per
append to error_messages, carrying the field name and the offending values of
the formatted log string. -/
inductive NormError where
  | badColumn (field : String)
  | badDates (field : String) (vals : List CellVal)
  | badPicklist (field : String) (vals : List CellVal)
  | noPicklist (field : String)
  | badIdLength (field : String) (vals : List CellVal)
  | badBool (field : String) (vals : List CellVal)
  | notStringable (field : String) (vals : List CellVal)
  | overLength (field : String) (vals : List CellVal)
  | unknownType (field : String) (ty : String)
deriving DecidableEq, Repr

/-- The falsy-sized-value conversion of source lines 1329-1331: for every
field whose declared type differs from the tag bool (note: the Salesforce
boolean type tag is the string boolean, compare source line 1380), map each
value owning a len of zero to None. -/
def convertEmptySized (ty : String) (cells : List CellVal) : List CellVal :=
  if ty = "bool" then cells
  else cells.map fun v => if hasLen v && (lenOf v == 0) then CellVal.none else v

/-- The flagging lambda of the id/reference branch (source line 1372): a value
is flagged when it is truthy and its textual length is not 0, 15 or 18. -/
def flaggedId (v : CellVal) : Bool :=
  if truthy v then
    !((pyStr v).length == 0 || (pyStr v).length == 15 || (pyStr v).length == 18)
  else false

/-- The per-value picklist check of _check_picklist_values (source lines
1299-1312) for scalar values; list values never reach this point because any
non-empty list raises the TypeError of source line 1335 first and empty lists
were converted to None before.  Only string values can compare equal to the
picklist entries. -/
def checkPicklistValue (pl : List String) (v : CellVal) : Option CellVal :=
  match v with
  | CellVal.none => Option.none
  | CellVal.str s => if s = "" ∨ pl.contains s then Option.none else some (CellVal.str s)
  | v => some v

/-- Python membership of a value in the boolean whitelist of source line 1381,
namely the list containing True, False, None, the string 0 and the one-space
string; Python numeric equality makes the integers 0 and 1 members as well. -/
def isAllowedBool (v : CellVal) : Bool :=
  match v with
  | CellVal.boolean _ => true
  | CellVal.none => true
  | CellVal.str s => s == "0" || s == " "
  | CellVal.int n => n == 0 || n == 1
  | _ => false

/-- Whether unicode(x) is a faithful text representation per the
not-stringable check of source line 1390, i.e. isinstance of str, unicode, int
or float (Python booleans are ints). -/
def stringable : CellVal → Bool
  | CellVal.str _ => true
  | CellVal.int _ => true
  | CellVal.boolean _ => true
  | _ => false

/-- The strftime conversion applied in the date/datetime branch (source lines
1345-1354). -/
def fmtDateCell (ty : String) : CellVal → CellVal
  | CellVal.date d dt => CellVal.str (if ty = "date" then d else dt)
  | _ => CellVal.none

/-- The date/datetime branch of the dispatch (source lines 1338-1354), on the
already-converted cells. -/
def dateColumn (ty name : String) (cells1 : List CellVal) :
    List CellVal × List NormError × Bool :=
  (cells1.map fun v => if truthy v && isDate v then fmtDateCell ty v else CellVal.none,
   if pdUnique (cells1.filter fun v => !(truthy v && isDate v)) = [] then []
   else [NormError.badDates name (pdUnique (cells1.filter fun v => !(truthy v && isDate v)))],
   false)

/-- The picklist branch of the dispatch (source lines 1355-1368). -/
def picklistColumn (name : String) (picklist : Option (List String))
    (cells1 : List CellVal) : List CellVal × List NormError × Bool :=
  match picklist with
  | some pl =>
      (cells1,
       if pdUnique (cells1.filterMap (checkPicklistValue pl)) = [] then []
       else [NormError.badPicklist name (pdUnique (cells1.filterMap (checkPicklistValue pl)))],
       false)
  | Option.none => (cells1, [NormError.noPicklist name], false)

/-- The id/reference branch of the dispatch (source lines 1369-1379): flag
truthy values of unacceptable textual length (fatal when the column is the
match identifier, of type id), then map every falsy value to None. -/
def idRefColumn (ty name : String) (cells1 : List CellVal) :
    List CellVal × List NormError × Bool :=
  (cells1.map fun v => if truthy v then v else CellVal.none,
   if pdUnique (cells1.filter flaggedId) = [] then []
   else [NormError.badIdLength name (pdUnique (cells1.filter flaggedId))],
   !(pdUnique (cells1.filter flaggedId)).isEmpty && (ty == "id"))

/-- The boolean branch of the dispatch (source lines 1380-1383). -/
def booleanColumn (name : String) (cells1 : List CellVal) :
    List CellVal × List NormError × Bool :=
  (cells1,
   if pdUnique (cells1.filter fun v => !isAllowedBool v) = [] then []
   else [NormError.badBool name (pdUnique (cells1.filter fun v => !isAllowedBool v))],
   false)

/-- The string-like branch for fields with a declared maximum length (source
lines 1387-1418). -/
def stringColumn (name : String) (maxLen : Nat) (cells1 : List CellVal) :
    List CellVal × List NormError × Bool :=
  (cells1,
   (if ((cells1.map fun v => if v == CellVal.none then CellVal.str "" else v).filter
        fun v => !stringable v) = [] then []
    else [NormError.notStringable name
      ((cells1.map fun v => if v == CellVal.none then CellVal.str "" else v).filter
        fun v => !stringable v)])
   ++ (if (cells1.filter fun v => maxLen < (pyStr v).length) = [] then []
       else [NormError.overLength name (cells1.filter fun v => maxLen < (pyStr v).length)]),
   false)

/-- Processing of one dataframe column whose field definition was found:
the falsy-sized conversion, the unhashable-list TypeError, then the dispatch
on the declared type (source lines 1328-1426).  Returns the converted cells,
the validation errors recorded for this column, and whether a fatal error was
flagged. -/
def processColumn (fd : FieldDef) (name : String) (cells : List CellVal) :
    Except String (List CellVal × List NormError × Bool) :=
  if ((convertEmptySized fd.type_ cells).filter fun v => !(v == CellVal.none)).any isList then
    .error ("Unhashable type detected in field " ++ name)
  else if fd.type_ = "date" ∨ fd.type_ = "datetime" then
    .ok (dateColumn fd.type_ name (convertEmptySized fd.type_ cells))
  else if fd.type_ = "picklist" then
    .ok (picklistColumn name fd.picklist (convertEmptySized fd.type_ cells))
  else if fd.type_ = "id" ∨ fd.type_ = "reference" then
    .ok (idRefColumn fd.type_ name (convertEmptySized fd.type_ cells))
  else if fd.type_ = "boolean" then
    .ok (booleanColumn name (convertEmptySized fd.type_ cells))
  else if fd.type_ ∈ (["int", "float", "currency", "decimal", "double", "percent"] : List String)
  then
    .ok (convertEmptySized fd.type_ cells, [], false)
  else if fd.length ≠ 0 then
    .ok (stringColumn name fd.length (convertEmptySized fd.type_ cells))
  else if fd.type_ = "address" ∨ fd.type_ = "base64" then
    .ok (convertEmptySized fd.type_ cells, [], false)
  else
    .ok (convertEmptySized fd.type_ cells, [NormError.unknownType name fd.type_], false)

/-- The column loop of normalize_sf_field_types (source lines 1317-1426):
unknown columns other than the bookkeeping key record a fatal error and stay
untouched; the bookkeeping key is skipped entirely; known columns run
processColumn.  Errors and the fatal flag accumulate across columns. -/
def normalizeCollect (defs : List (String × FieldDef)) :
    List (String × List CellVal) →
    Except String (List (String × List CellVal) × List NormError × Bool)
  | [] => .ok ([], [], false)
  | (name, cells) :: rest =>
      match lookupKV defs name with
      | Option.none =>
          if name = "quorum_side_primary_key" then do
            let (df, es, fat) ← normalizeCollect defs rest
            .ok ((name, cells) :: df, es, fat)
          else do
            let (df, es, _fat) ← normalizeCollect defs rest
            .ok ((name, cells) :: df, NormError.badColumn name :: es, true)
      | some fd => do
          let (cells2, es1, f1) ← processColumn fd name cells
          let (df, es, fat) ← normalizeCollect defs rest
          .ok ((name, cells2) :: df, es1 ++ es, f1 || fat)

/-- SalesforceAPIWrapper.normalize_sf_field_types: run the column loop, then
raise ValueError exactly when errors were recorded and at least one was fatal
(source lines 1428-1432); otherwise return the normalized dataframe. -/
def normalize_sf_field_types (df : List (String × List CellVal))
    (defs : List (String × FieldDef)) : Except String (List (String × List CellVal)) :=
  match normalizeCollect defs df with
  | .error e => .error e
  | .ok (df2, es, fat) =>
      if es ≠ [] ∧ fat then .error "Data cannot be normalized to SF" else .ok df2

/-! ## SFTP change detection and checksum commit
(NewSFTPIntegration.run_task_from_external_crm_to_quorum, source lines
390-462, and _get_sftp_filepaths_with_change, source lines 716-782) -/

/-- The three source-server branches of _get_sftp_filepaths_with_change. -/
inductive ServerType where
  | quorum_sftp
  | s3_bucket
  | external_sftp
deriving DecidableEq, Repr

/-- The save_new_checksum argument that _get_sftp_filepaths_with_change passes
to the download-and-check helpers, per branch (source lines 742, 768
and 780): every branch passes False, so the download/change-check step never
persists a new checksum. -/
def sftpChangeCheckSaveNewChecksum : ServerType → Bool
  | .quorum_sftp => false
  | .s3_bucket => false
  | .external_sftp => false

/-- Result of one SFTP import run. -/
inductive SftpRunResult where
  | emptyList
  | dryRun (count : Nat)
  | failed
  | succeeded
deriving DecidableEq, Repr

/-- The per-file loop state: the delivery results accumulated so far and the
file paths whose checksum has been committed via FileManager.save_file. -/
def sftpRunLoop (deliver : String → Bool) (force dry : Bool) :
    List (String × Bool) → List Bool × List String × Nat
  | [] => ([], [], 0)
  | (path, hasChanged) :: rest =>
      let (results, saved, dries) := sftpRunLoop deliver force dry rest
      if hasChanged || force || dry then
        if dry then (results, saved, dries + 1)
        else
          let r := deliver path
          (r :: results, (if hasChanged then path :: saved else saved), dries)
      else (results, saved, dries)

/-- NewSFTPIntegration.run_task_from_external_crm_to_quorum, with the change
detector and the downstream Quorum delivery supplied as oracles: for each
changed (or forced) file, deliver its converted content, then commit the new
checksum for every changed file (source lines 432-440); finally fail when any
delivery returned False.  The second component lists the files whose checksum
was committed during the run. -/
def run_task_from_external_crm_to_quorum (filepathsWithChange : List (String × Bool))
    (deliver : String → Bool) (force dry : Bool) : SftpRunResult × List String :=
  if filepathsWithChange = [] then (.emptyList, [])
  else
    let (results, saved, dries) := sftpRunLoop deliver force dry filepathsWithChange
    if dry then (.dryRun dries, saved)
    else if results.contains false then (.failed, saved)
    else (.succeeded, saved)

/-! ## Claim C10 -/

/-- C10: whenever no prebuilt where_clauses list is supplied and search_values
and field_mapping are not both supplied, query_sf raises a ValueError before
any external query is issued; when where_clauses is supplied, search_values
and field_mapping are not required. -/
theorem query_sf_requires_arguments
    (wc : List String) (sv : Option (List PyRec)) (fm : Option (List (String × String))) :
    ((sv = Option.none ∨ fm = Option.none) →
      ∃ e, query_sf Option.none sv fm = Except.error e)
    ∧ (∃ r, query_sf (some wc) sv fm = Except.ok r) := by
  constructor
  · intro h
    have hb : (!(truthyOptList sv && truthyOptList fm)) = true := by
      rcases h with h | h <;> subst h <;> simp [truthyOptList]
    refine ⟨"Must supply either an explicit where clause or both search_values and fields_mapping.", ?_⟩
    unfold query_sf
    rw [if_pos ⟨rfl, hb⟩]
  · unfold query_sf
    rw [if_neg]
    · exact ⟨wc, rfl⟩
    · rintro ⟨h, -⟩
      cases h

/-- Witness for C10 at a concrete input: field_mapping supplied but
search_values absent, and no prebuilt where clause. -/
theorem query_sf_requires_arguments_witness :
    ∃ e, query_sf Option.none Option.none (some [("a", "A")]) = Except.error e :=
  (query_sf_requires_arguments [] Option.none (some [("a", "A")])).1 (Or.inl rfl)

/-! ## Claim C6 -/

/-- C6: after a fully successful upsert whose outcomes carry identifier pairs,
an entity configured to store ids in Quorum but with neither a custom-slug
destination nor an entry in the identifier dictionary makes reconciliation
fail fatally, raising with the orphaned identifier pairs attached rather than
silently discarding them. -/
theorem reconcile_no_destination_fatal (cfg : EntityConfig) (results : List UpsertOutcomeRec)
    (h1 : cfg.storeIdsInQuorum = true) (h2 : cfg.hasCustomSlug = false)
    (h3 : cfg.inIdDictionary = false) (h4 : idUpdatePairs results ≠ []) :
    send_external_df_to_external cfg true results = Except.error (idUpdatePairs results) := by
  unfold send_external_df_to_external
  simp [h1, h2, h3, h4]

/-- Witness for C6: two successful outcomes with external ids and no
configured destination produce the fatal error carrying both pairs. -/
theorem reconcile_no_destination_fatal_witness :
    send_external_df_to_external ⟨true, false, false⟩ true
      [⟨true, some (CellVal.int 1), some "A"⟩, ⟨true, some (CellVal.int 2), some "B"⟩]
      = Except.error [(CellVal.int 1, "A"), (CellVal.int 2, "B")] := by
  rw [reconcile_no_destination_fatal ⟨true, false, false⟩
    [⟨true, some (CellVal.int 1), some "A"⟩, ⟨true, some (CellVal.int 2), some "B"⟩]
    rfl rfl rfl (by decide)]
  rfl

/-! ## Claim C5 -/

/-- C5: evaluation of the import pipeline at the failing input.  The
change-check step itself passes save_new_checksum as False on every branch,
but the per-file loop commits the checksum of every changed file after the
delivery call returns, even when delivery reported failure: a single changed
file whose downstream delivery returns False still has its checksum
committed while the run reports failure. -/
theorem sftp_checksum_committed_despite_failed_delivery :
    run_task_from_external_crm_to_quorum [("f.csv", true)] (fun _ => false) false false
      = (SftpRunResult.failed, ["f.csv"])
    ∧ (∀ st : ServerType, sftpChangeCheckSaveNewChecksum st = false) := by
  refine ⟨rfl, ?_⟩
  intro st
  cases st <;> rfl

/-! ## Claim C9 -/

/-- C9: evaluation at the failing input.  Empty sized values are converted to
absent for a string column (first conjunct), but the conversion is also
applied to a column of declared type boolean, because the exemption guard of
source line 1329 compares the type tag against bool while Salesforce boolean
fields carry the tag boolean (source line 1380): the empty string in a
boolean column becomes None and is not reported as an invalid boolean value
(second conjunct). -/
theorem boolean_empty_value_conversion_bug :
    processColumn ⟨"string", 80, Option.none⟩ "Name" [CellVal.str "", CellVal.pylist []]
      = Except.ok ([CellVal.none, CellVal.none], [], false)
    ∧ processColumn ⟨"boolean", 0, Option.none⟩ "Active__c" [CellVal.str ""]
      = Except.ok ([CellVal.none], [], false) :=
  ⟨rfl, rfl⟩

/-! ## Claim C2 -/

/-- C2 counterexample: a chunk of two records whose bulk response contains a
single item produces a single outcome entry, not two — the zip on source
line 1098 truncates to the shorter list, so the outcome count does not equal
the input count. -/
theorem upsert_chunk_short_response_counterexample :
    run_upsert_chunk (fun _ _ _ => Except.ok [⟨some "SF1", true, true⟩])
      (fun _ => ⟨Option.none, false, false⟩) 0 "Contact"
      [[("quorum_side_primary_key", CellVal.int 1)], [("quorum_side_primary_key", CellVal.int 2)]]
      "Id"
      = Except.ok [⟨true, some (CellVal.int 1), some "SF1"⟩]
    ∧ ([[("quorum_side_primary_key", CellVal.int 1)],
        [("quorum_side_primary_key", CellVal.int 2)]] : List PyRec).length = 2 :=
  ⟨rfl, rfl⟩

/-- C2 amended: the outcome list of a chunk has min(input count, response
count) entries, still correlated strictly by position: entry i pairs the
popped bookkeeping id of input record i with response item i.  For the
one-at-a-time ContentNote path the response count always equals the input
count, so there the outcome count equals the input count. -/
theorem upsert_chunk_outcomes_min_length
    (net : Nat → List PyRec → String → Except TransportFault (List SFResp))
    (oneNet : PyRec → SFResp) (idx : Nat) (model : String) (chunk : List PyRec) (m : String)
    (rs : List UpsertOutcomeRec)
    (h : run_upsert_chunk net oneNet idx model chunk m = Except.ok rs) :
    (model = "ContentNote" → rs.length = chunk.length)
    ∧ (model ≠ "ContentNote" → ∀ resp,
        net idx (chunk.map stripQuorumKey) m = Except.ok resp →
        rs.length = min chunk.length resp.length
        ∧ ∀ i (hi : i < rs.length) (hc : i < chunk.length) (hr : i < resp.length),
            rs.get ⟨i, hi⟩ = recordOneResult
              (getPy (chunk.get ⟨i, hc⟩) "quorum_side_primary_key") (resp.get ⟨i, hr⟩)) := by
  constructor
  · intro hm
    rw [run_upsert_chunk, if_pos hm] at h
    simp only [pure_bind] at h
    injection h with h
    subst h
    simp [List.length_zipWith]
  · intro hm resp hnet
    rw [run_upsert_chunk, if_neg hm, hnet] at h
    simp only [bind, Except.bind, pure, Except.pure] at h
    injection h with h
    subst h
    constructor
    · simp [List.length_zipWith]
    · intro i hi hc hr
      simp [List.get_eq_getElem, List.getElem_zipWith, List.getElem_map]

/-- Concrete bulk-client oracle for the C2 witness: always one response item. -/
def c2WitNet : Nat → List PyRec → String → Except TransportFault (List SFResp) :=
  fun _ _ _ => Except.ok [⟨some "SF9", true, false⟩]

/-- Concrete one-at-a-time oracle for the C2 witness (unused path). -/
def c2WitOne : PyRec → SFResp := fun _ => ⟨Option.none, false, false⟩

/-- Concrete two-record chunk for the C2 witness. -/
def c2WitChunk : List PyRec :=
  [[("quorum_side_primary_key", CellVal.int 9)], [("quorum_side_primary_key", CellVal.int 10)]]

/-- Witness for the amended C2 at a concrete input: two input records, one
response item, one outcome entry. -/
theorem upsert_chunk_outcomes_min_length_witness :
    ([⟨true, some (CellVal.int 9), some "SF9"⟩] : List UpsertOutcomeRec).length
      = min c2WitChunk.length ([⟨some "SF9", true, false⟩] : List SFResp).length := by
  have h := (upsert_chunk_outcomes_min_length c2WitNet c2WitOne 0 "Contact" c2WitChunk "Id"
      [⟨true, some (CellVal.int 9), some "SF9"⟩] (by decide)).2
      (by decide) [⟨some "SF9", true, false⟩] (by decide)
  exact h.1

/-! ## Claim C1 -/

/-- Helper for C1: when every chunk submission from some base index on
succeeds, the loop returns overall success together with all outcome entries
in order. -/
theorem run_upsert_go_all_ok
    (net : Nat → List PyRec → String → Except TransportFault (List SFResp))
    (oneNet : PyRec → SFResp) (model m : String) :
    ∀ (cs : List (List PyRec)) (base : Nat) (acc : List UpsertOutcomeRec)
      (outs : Nat → List UpsertOutcomeRec),
    (∀ i (hi : i < cs.length),
        run_upsert_chunk net oneNet (base + i) model (cs.get ⟨i, hi⟩) m = Except.ok (outs i)) →
    run_upsert_go net oneNet model m cs base acc
      = (true, acc ++ ((List.range cs.length).map outs).flatten) := by
  intro cs
  induction cs with
  | nil => intro base acc outs _; simp [run_upsert_go]
  | cons c cs ih =>
    intro base acc outs h
    have h0 : run_upsert_chunk net oneNet base model c m = Except.ok (outs 0) := by
      have := h 0 (Nat.succ_pos _)
      simpa using this
    have hrest : ∀ i (hi : i < cs.length),
        run_upsert_chunk net oneNet (base + 1 + i) model (cs.get ⟨i, hi⟩) m
          = Except.ok (outs (i + 1)) := by
      intro i hi
      have := h (i + 1) (Nat.succ_lt_succ hi)
      simpa [Nat.add_comm, Nat.add_assoc, Nat.add_left_comm] using this
    rw [run_upsert_go, h0]
    refine (ih (base + 1) (acc ++ outs 0) (fun i => outs (i + 1)) hrest).trans ?_
    rw [List.length_cons, List.range_succ_eq_map]
    simp [List.map_map, Function.comp_def, List.append_assoc]

/-- Helper for C1: when the chunk submissions before relative index N succeed
and the one at N raises a transport fault, the loop stops with overall
success false and exactly the outcome entries of the chunks before N. -/
theorem run_upsert_go_fault
    (net : Nat → List PyRec → String → Except TransportFault (List SFResp))
    (oneNet : PyRec → SFResp) (model m : String) :
    ∀ (cs : List (List PyRec)) (base : Nat) (acc : List UpsertOutcomeRec) (N : Nat)
      (outs : Nat → List UpsertOutcomeRec) (f : TransportFault) (hN : N < cs.length),
    (∀ i (hi : i < N),
        run_upsert_chunk net oneNet (base + i) model (cs.get ⟨i, Nat.lt_trans hi hN⟩) m
          = Except.ok (outs i)) →
    run_upsert_chunk net oneNet (base + N) model (cs.get ⟨N, hN⟩) m = Except.error f →
    run_upsert_go net oneNet model m cs base acc
      = (false, acc ++ ((List.range N).map outs).flatten) := by
  intro cs
  induction cs with
  | nil => intro base acc N outs f hN; exact absurd hN (Nat.not_lt_zero _)
  | cons c cs ih =>
    intro base acc N outs f hN hok herr
    cases N with
    | zero =>
      have herr0 : run_upsert_chunk net oneNet base model c m = Except.error f := by
        simpa using herr
      rw [run_upsert_go, herr0]
      simp
    | succ N =>
      have h0 : run_upsert_chunk net oneNet base model c m = Except.ok (outs 0) := by
        have := hok 0 (Nat.succ_pos _)
        simpa using this
      have hN2 : N < cs.length := Nat.lt_of_succ_lt_succ hN
      have hok2 : ∀ i (hi : i < N),
          run_upsert_chunk net oneNet (base + 1 + i) model (cs.get ⟨i, Nat.lt_trans hi hN2⟩) m
            = Except.ok (outs (i + 1)) := by
        intro i hi
        have := hok (i + 1) (Nat.succ_lt_succ hi)
        simpa [Nat.add_comm, Nat.add_assoc, Nat.add_left_comm] using this
      have herr2 : run_upsert_chunk net oneNet (base + 1 + N) model (cs.get ⟨N, hN2⟩) m
          = Except.error f := by
        simpa [Nat.add_comm, Nat.add_assoc, Nat.add_left_comm] using herr
      rw [run_upsert_go, h0]
      refine (ih (base + 1) (acc ++ outs 0) N (fun i => outs (i + 1)) f hN2 hok2 herr2).trans ?_
      rw [List.range_succ_eq_map]
      simp [List.map_map, Function.comp_def, List.append_assoc]

/-- C1: chunks are processed strictly in order; if every chunk submission
succeeds the upsert returns overall success true with all outcome entries,
and if the submission of chunk N raises a transport fault (malformed request
or connectivity failure) after chunks 0..N-1 succeeded, the run stops without
attempting later chunks and returns overall success false together with
exactly the outcome entries of the chunks completed before the fault. -/
theorem run_upsert_transport_fault_halts
    (net : Nat → List PyRec → String → Except TransportFault (List SFResp))
    (oneNet : PyRec → SFResp) (model : String) (records : List PyRec) (maxB : Nat)
    (m : String) :
    (∀ outs, (∀ i (hi : i < (chunked_list records maxB).length),
        run_upsert_chunk net oneNet i model ((chunked_list records maxB).get ⟨i, hi⟩)
          (defaultMatchOn m) = Except.ok (outs i)) →
      run_upsert_to_sf net oneNet model records maxB m
        = (true, ((List.range (chunked_list records maxB).length).map outs).flatten))
    ∧ (∀ N outs f (hN : N < (chunked_list records maxB).length),
        (∀ i (hi : i < N),
          run_upsert_chunk net oneNet i model
            ((chunked_list records maxB).get ⟨i, Nat.lt_trans hi hN⟩)
            (defaultMatchOn m) = Except.ok (outs i)) →
        run_upsert_chunk net oneNet N model ((chunked_list records maxB).get ⟨N, hN⟩)
          (defaultMatchOn m) = Except.error f →
        run_upsert_to_sf net oneNet model records maxB m
          = (false, ((List.range N).map outs).flatten)) := by
  constructor
  · intro outs h
    have := run_upsert_go_all_ok net oneNet model (defaultMatchOn m)
      (chunked_list records maxB) 0 [] outs (by simpa using h)
    simpa [run_upsert_to_sf] using this
  · intro N outs f hN hok herr
    have := run_upsert_go_fault net oneNet model (defaultMatchOn m)
      (chunked_list records maxB) 0 [] N outs f hN (by simpa using hok) (by simpa using herr)
    simpa [run_upsert_to_sf] using this

/-- Concrete transport oracle for the C1 witness: first submission succeeds,
second raises a connectivity failure. -/
def c1WitNet : Nat → List PyRec → String → Except TransportFault (List SFResp) :=
  fun i _ _ =>
    if i = 0 then Except.ok [⟨some "SF1", true, true⟩] else Except.error .connectionError

/-- Concrete one-at-a-time oracle for the C1 witness (unused path). -/
def c1WitOne : PyRec → SFResp := fun _ => ⟨Option.none, false, false⟩

/-- Concrete record list for the C1 witness: two records, chunk size one, so
two chunks of one record each. -/
def c1WitRecords : List PyRec :=
  [[("quorum_side_primary_key", CellVal.int 1)], [("quorum_side_primary_key", CellVal.int 2)]]

/-- Witness for C1 at a concrete input: the fault on the second chunk stops
the run with overall success false and only the first chunk's outcome. -/
theorem run_upsert_transport_fault_halts_witness :
    run_upsert_to_sf c1WitNet c1WitOne "Contact" c1WitRecords 1 "Id"
      = (false, [⟨true, some (CellVal.int 1), some "SF1"⟩]) := by
  have h := (run_upsert_transport_fault_halts c1WitNet c1WitOne "Contact" c1WitRecords 1
      "Id").2 1 (fun _ => [⟨true, some (CellVal.int 1), some "SF1"⟩])
      TransportFault.connectionError (by decide) (by decide) (by decide)
  exact h.trans (by decide)

/-! ## Claim C3 -/

/-- The shape every emitted where-clause chunk actually has: within the
configured maximum, or the join of an accumulated prefix that was within the
maximum with one final predicate (the chunk is closed only after exceeding
the limit), or a single predicate of one input record (which may alone exceed
the limit). -/
def GoodChunk (fm : List (String × String)) (maxLen : Nat) (rs : List PyRec)
    (c : String) : Prop :=
  c.length ≤ maxLen
  ∨ (∃ w p, c = w ++ " OR " ++ p ∧ w.length ≤ maxLen)
  ∨ (∃ r, r ∈ rs ∧ whereItemsForRecord r fm ≠ [] ∧ c = mkClause (whereItemsForRecord r fm))

theorem GoodChunk.mono {fm : List (String × String)} {maxLen : Nat} {r : PyRec}
    {rs : List PyRec} {c : String} (h : GoodChunk fm maxLen rs c) :
    GoodChunk fm maxLen (r :: rs) c := by
  rcases h with h | h | ⟨r2, hr2, hne, hc⟩
  · exact Or.inl h
  · exact Or.inr (Or.inl h)
  · exact Or.inr (Or.inr ⟨r2, List.mem_cons_of_mem _ hr2, hne, hc⟩)

/-- Invariant of the where-clause accumulation loop: starting from an
accumulated clause within the limit, every chunk the loop emits beyond the
initial accumulator is a GoodChunk. -/
theorem sfWhereAux_good (fm : List (String × String)) (maxLen : Nat) :
    ∀ (rs : List PyRec) (cw : String) (acc : List String),
    cw.length ≤ maxLen →
    ∀ c, c ∈ sfWhereAux fm maxLen rs cw acc → c ∈ acc ∨ GoodChunk fm maxLen rs c := by
  intro rs
  induction rs with
  | nil =>
    intro cw acc _ c hc
    rw [sfWhereAux] at hc
    exact Or.inl hc
  | cons r rest ih =>
    intro cw acc hcw c hc
    have hflush : ¬ (maxLen < cw.length) := Nat.not_lt.mpr hcw
    rw [sfWhereAux, if_neg hflush] at hc
    by_cases hit : whereItemsForRecord r fm = []
    · rw [if_pos hit] at hc
      rcases ih cw acc hcw c hc with h | h
      · exact Or.inl h
      · exact Or.inr h.mono
    · rw [if_neg hit] at hc
      by_cases hcw0 : cw = ""
      · rw [if_pos hcw0] at hc
        by_cases hclose : maxLen < (mkClause (whereItemsForRecord r fm)).length ∨ rest = []
        · rw [if_pos hclose] at hc
          rcases ih "" (acc ++ [mkClause (whereItemsForRecord r fm)]) (by simp) c hc with h | h
          · rcases List.mem_append.mp h with h | h
            · exact Or.inl h
            · have hcc : c = mkClause (whereItemsForRecord r fm) := by simpa using h
              exact Or.inr (Or.inr (Or.inr ⟨r, List.mem_cons_self _ _, hit, hcc⟩))
          · exact Or.inr h.mono
        · rw [if_neg hclose] at hc
          push_neg at hclose
          rcases ih (mkClause (whereItemsForRecord r fm)) acc hclose.1 c hc with h | h
          · exact Or.inl h
          · exact Or.inr h.mono
      · rw [if_neg hcw0] at hc
        by_cases hclose :
            maxLen < (cw ++ " OR " ++ mkClause (whereItemsForRecord r fm)).length ∨ rest = []
        · rw [if_pos hclose] at hc
          rcases ih "" (acc ++ [cw ++ " OR " ++ mkClause (whereItemsForRecord r fm)]) (by simp)
              c hc with h | h
          · rcases List.mem_append.mp h with h | h
            · exact Or.inl h
            · have hcc : c = cw ++ " OR " ++ mkClause (whereItemsForRecord r fm) := by
                simpa using h
              exact Or.inr (Or.inr (Or.inl ⟨cw, mkClause (whereItemsForRecord r fm), hcc, hcw⟩))
          · exact Or.inr h.mono
        · rw [if_neg hclose] at hc
          push_neg at hclose
          rcases ih (cw ++ " OR " ++ mkClause (whereItemsForRecord r fm)) acc hclose.1 c hc
            with h | h
          · exact Or.inl h
          · exact Or.inr h.mono

/-- C3 amended: every emitted chunk is within the configured maximum length
unless the excess was introduced by its final predicate: an over-long chunk is
either the join of an in-limit prefix with one more predicate (the loop
closes a chunk only after the accumulated text exceeds the limit), or a
single predicate that alone exceeds the limit, emitted as its own chunk. -/
theorem sf_where_clause_chunk_length (search_values : List PyRec)
    (field_mapping : List (String × String)) (c : String)
    (hc : c ∈ sf_build_where_clauses search_values field_mapping) :
    GoodChunk field_mapping MAX_WHERE_CLAUSE search_values c := by
  have h := sfWhereAux_good field_mapping MAX_WHERE_CLAUSE search_values "" [] (by decide) c hc
  rcases h with h | h
  · cases h
  · exact h

/-- Concrete record list for the C3 witness. -/
def c3WitRecords : List PyRec := [[("a", CellVal.str "x")]]

/-- Concrete field mapping for the C3 witness. -/
def c3WitMapping : List (String × String) := [("a", "A")]

/-- Witness for the amended C3 at a concrete input. -/
theorem sf_where_clause_chunk_length_witness :
    GoodChunk c3WitMapping MAX_WHERE_CLAUSE c3WitRecords "(A = \x27x\x27)" :=
  sf_where_clause_chunk_length c3WitRecords c3WitMapping _ (by decide)

/-- A 1745-character string value; its predicate serializes to 1753
characters, within the 3500 limit. -/
def c3CexStrA : String := String.mk (List.replicate 1745 'a')

/-- A second 1745-character string value for the second record. -/
def c3CexStrB : String := String.mk (List.replicate 1745 'b')

/-- Two candidate records whose individual predicates are each within the
limit but whose joined chunk is not. -/
def c3CexRecords : List PyRec :=
  [[("a", CellVal.str c3CexStrA)], [("a", CellVal.str c3CexStrB)]]

/-- Field mapping for the C3 counterexample. -/
def c3CexMapping : List (String × String) := [("a", "A")]

theorem escapeSingleQuotes_replicate (c : Char) (h : ¬ c = '\x27') (n : Nat) :
    escapeSingleQuotes (String.mk (List.replicate n c)) = String.mk (List.replicate n c) := by
  unfold escapeSingleQuotes
  congr 1
  induction n with
  | zero => rfl
  | succ n ih => rw [List.replicate_succ, List.flatMap_cons, if_neg h, ih]; rfl

theorem c3CexStrA_length : c3CexStrA.length = 1745 := by
  unfold c3CexStrA
  exact List.length_replicate 1745 'a'

theorem c3CexStrB_length : c3CexStrB.length = 1745 := by
  unfold c3CexStrB
  exact List.length_replicate 1745 'b'

theorem c3CexItemsA : whereItemsForRecord [("a", CellVal.str c3CexStrA)] c3CexMapping
    = ["A" ++ " = " ++ "\x27" ++ escapeSingleQuotes c3CexStrA ++ "\x27"] := rfl

theorem c3CexItemsB : whereItemsForRecord [("a", CellVal.str c3CexStrB)] c3CexMapping
    = ["A" ++ " = " ++ "\x27" ++ escapeSingleQuotes c3CexStrB ++ "\x27"] := rfl

theorem c3CexEscA : escapeSingleQuotes c3CexStrA = c3CexStrA := by
  unfold c3CexStrA
  exact escapeSingleQuotes_replicate 'a' (by decide) 1745

theorem c3CexEscB : escapeSingleQuotes c3CexStrB = c3CexStrB := by
  unfold c3CexStrB
  exact escapeSingleQuotes_replicate 'b' (by decide) 1745

theorem c3CexClauseA_length :
    (mkClause (whereItemsForRecord [("a", CellVal.str c3CexStrA)] c3CexMapping)).length
      = 1753 := by
  rw [c3CexItemsA, c3CexEscA]
  show ("(" ++ ("A" ++ " = " ++ "\x27" ++ c3CexStrA ++ "\x27") ++ ")").length = 1753
  simp only [String.length_append, c3CexStrA_length]
  decide

theorem c3CexClauseB_length :
    (mkClause (whereItemsForRecord [("a", CellVal.str c3CexStrB)] c3CexMapping)).length
      = 1753 := by
  rw [c3CexItemsB, c3CexEscB]
  show ("(" ++ ("A" ++ " = " ++ "\x27" ++ c3CexStrB ++ "\x27") ++ ")").length = 1753
  simp only [String.length_append, c3CexStrB_length]
  decide

theorem c3CexBuild : sf_build_where_clauses c3CexRecords c3CexMapping
    = [mkClause (whereItemsForRecord [("a", CellVal.str c3CexStrA)] c3CexMapping)
        ++ " OR " ++ mkClause (whereItemsForRecord [("a", CellVal.str c3CexStrB)] c3CexMapping)] := by
  unfold sf_build_where_clauses c3CexRecords
  rw [sfWhereAux]
  rw [if_neg (by decide : ¬ (MAX_WHERE_CLAUSE < ("" : String).length))]
  rw [if_neg (by rw [c3CexItemsA]; exact List.cons_ne_nil _ _)]
  rw [if_pos rfl]
  rw [if_neg (by
    rw [not_or]
    refine ⟨?_, List.cons_ne_nil _ _⟩
    rw [c3CexClauseA_length]
    decide)]
  rw [sfWhereAux]
  rw [if_neg (by rw [c3CexClauseA_length]; decide)]
  rw [if_neg (by rw [c3CexItemsB]; exact List.cons_ne_nil _ _)]
  rw [if_neg (by
    intro h
    have h2 := congrArg String.length h
    rw [c3CexClauseA_length] at h2
    exact absurd h2 (by decide))]
  rw [if_pos (Or.inr rfl)]
  rw [sfWhereAux]
  rw [List.nil_append]

/-- C3 counterexample: the two predicates are each 1753 characters, below the
3500 maximum, yet the builder emits the single chunk joining both, of length
3510, exceeding the configured maximum — refuting the claim that a chunk
exceeds the maximum only when a single predicate alone exceeds it. -/
theorem sf_where_clause_chunk_length_counterexample :
    sf_build_where_clauses c3CexRecords c3CexMapping
      = [mkClause (whereItemsForRecord [("a", CellVal.str c3CexStrA)] c3CexMapping)
          ++ " OR " ++ mkClause (whereItemsForRecord [("a", CellVal.str c3CexStrB)] c3CexMapping)]
    ∧ (mkClause (whereItemsForRecord [("a", CellVal.str c3CexStrA)] c3CexMapping)).length
        ≤ MAX_WHERE_CLAUSE
    ∧ (mkClause (whereItemsForRecord [("a", CellVal.str c3CexStrB)] c3CexMapping)).length
        ≤ MAX_WHERE_CLAUSE
    ∧ MAX_WHERE_CLAUSE
        < ((sf_build_where_clauses c3CexRecords c3CexMapping).headD "").length := by
  refine ⟨c3CexBuild, by rw [c3CexClauseA_length]; decide, by rw [c3CexClauseB_length]; decide, ?_⟩
  rw [c3CexBuild]
  simp only [List.headD_cons, String.length_append]
  rw [c3CexClauseA_length, c3CexClauseB_length]
  decide


/-! ## Claim C4 -/

/-- Ordering on field-mapping pairs by the external (salesforce) field name. -/
def extNameLe (a b : String × String) : Prop := a.2 ≤ b.2

instance : DecidableRel extNameLe := fun a b =>
  decidable_of_iff (a.2 ≤ b.2) Iff.rfl

/-- Modelled from the spec words, for comparison with the source behaviour
(refinement target of C4 only): the comparison terms of one predicate with
the field mapping iterated in lexicographic order of the external field
name. -/
def whereItemsExternalOrder (record : PyRec) (fm : List (String × String)) : List String :=
  (fm.insertionSort extNameLe).filterMap fun kv =>
    match getPy record kv.1 with
    | Option.none => Option.none
    | some v => whereItem kv.2 v

/-- Field mapping whose internal-key order disagrees with the external-name
order. -/
def c4CexMapping : List (String × String) := [("a", "Z"), ("b", "A")]

/-- Candidate record for the C4 counterexample. -/
def c4CexRecord : PyRec := [("a", CellVal.int 1), ("b", CellVal.int 2)]

/-- C4 counterexample: the builder iterates sorted(listitems(field_mapping)),
i.e. sorts by the internal mapping key, so with mapping a to Z and b to A the
predicate reads Z-term before A-term — not lexicographic in the external
field name, differing from the spec-ordered rendering. -/
theorem sf_where_items_external_order_counterexample :
    sf_build_where_clauses [c4CexRecord] c4CexMapping = ["(Z = 1 AND A = 2)"]
    ∧ whereItemsExternalOrder c4CexRecord c4CexMapping = ["A = 2", "Z = 1"]
    ∧ whereItemsForRecord c4CexRecord c4CexMapping
        ≠ whereItemsExternalOrder c4CexRecord c4CexMapping := by
  have hpq : pairLe ("a", "Z") ("b", "A") :=
    Or.inl (by rw [String.lt_iff_toList_lt]; decide)
  have hza : ¬ extNameLe ("a", "Z") ("b", "A") := by
    unfold extNameLe
    rw [String.le_iff_toList_le]
    decide
  have hsort : sortPairs c4CexMapping = c4CexMapping := by
    show List.orderedInsert pairLe ("a", "Z")
      (List.insertionSort pairLe [(("b" : String), ("A" : String))]) = _
    rw [show List.insertionSort pairLe [(("b" : String), ("A" : String))]
          = [(("b" : String), ("A" : String))] from rfl]
    rw [List.orderedInsert, if_pos hpq]
    rfl
  have hext : List.insertionSort extNameLe c4CexMapping = [("b", "A"), ("a", "Z")] := by
    show List.orderedInsert extNameLe ("a", "Z")
      (List.insertionSort extNameLe [(("b" : String), ("A" : String))]) = _
    rw [show List.insertionSort extNameLe [(("b" : String), ("A" : String))]
          = [(("b" : String), ("A" : String))] from rfl]
    rw [List.orderedInsert, if_neg hza]
    rfl
  have hitems : whereItemsForRecord c4CexRecord c4CexMapping = ["Z = 1", "A = 2"] := by
    unfold whereItemsForRecord
    rw [hsort]
    decide
  have hextItems : whereItemsExternalOrder c4CexRecord c4CexMapping = ["A = 2", "Z = 1"] := by
    unfold whereItemsExternalOrder
    rw [hext]
    decide
  refine ⟨?_, hextItems, ?_⟩
  · unfold sf_build_where_clauses
    rw [sfWhereAux]
    rw [if_neg (by decide : ¬ (MAX_WHERE_CLAUSE < ("" : String).length))]
    rw [if_neg (by rw [hitems]; exact List.cons_ne_nil _ _)]
    rw [if_pos rfl]
    rw [if_pos (Or.inr rfl)]
    rw [sfWhereAux, hitems]
    decide
  · rw [hitems, hextItems]
    decide

/-- Helper for C4: the accumulation loop depends on the field mapping only
through the per-record comparison terms. -/
theorem sfWhereAux_congr (fm fm2 : List (String × String)) (maxLen : Nat)
    (hitems : ∀ r, whereItemsForRecord r fm = whereItemsForRecord r fm2) :
    ∀ rs cw acc, sfWhereAux fm maxLen rs cw acc = sfWhereAux fm2 maxLen rs cw acc := by
  intro rs
  induction rs with
  | nil => intro cw acc; rw [sfWhereAux, sfWhereAux]
  | cons r rest ih =>
    intro cw acc
    rw [sfWhereAux, sfWhereAux, hitems r]
    split_ifs <;> exact ih _ _

/-- C4 amended: the comparison terms inside a predicate follow the
lexicographic order of the (internal key, external name) pairs — primarily
the internal mapping key, not the external name — and this still makes the
serialized output identical across arbitrary orderings of the input field
mapping. -/
theorem sf_where_items_internal_order
    (fm fm2 : List (String × String)) (sv : List PyRec) (h : fm.Perm fm2) :
    sf_build_where_clauses sv fm = sf_build_where_clauses sv fm2
    ∧ (sortPairs fm).Sorted pairLe := by
  have hs : sortPairs fm = sortPairs fm2 :=
    List.eq_of_perm_of_sorted
      ((List.perm_insertionSort pairLe fm).trans
        (h.trans (List.perm_insertionSort pairLe fm2).symm))
      (List.sorted_insertionSort pairLe fm) (List.sorted_insertionSort pairLe fm2)
  have hitems : ∀ r, whereItemsForRecord r fm = whereItemsForRecord r fm2 := by
    intro r
    unfold whereItemsForRecord
    rw [show sortPairs fm = fm.insertionSort pairLe from rfl] at hs
    rw [show sortPairs fm2 = fm2.insertionSort pairLe from rfl] at hs
    rw [sortPairs, sortPairs, hs]
  constructor
  · unfold sf_build_where_clauses
    exact sfWhereAux_congr fm fm2 MAX_WHERE_CLAUSE hitems sv "" []
  · exact List.sorted_insertionSort pairLe fm

/-- Witness for the amended C4 at a concrete input: reversing the mapping
leaves the output unchanged. -/
theorem sf_where_items_internal_order_witness :
    sf_build_where_clauses [c4CexRecord] [("a", "Z"), ("b", "A")]
      = sf_build_where_clauses [c4CexRecord] [("b", "A"), ("a", "Z")]
    ∧ (sortPairs [("a", "Z"), ("b", "A")]).Sorted pairLe :=
  sf_where_items_internal_order [("a", "Z"), ("b", "A")] [("b", "A"), ("a", "Z")]
    [c4CexRecord] (List.Perm.swap ("b", "A") ("a", "Z") [])

/-! ## Claims C7 and C8: normalizer lemmas -/

/-- The conversion applied to one value by the falsy-sized rewrite of source
line 1331. -/
def convCell (v : CellVal) : CellVal :=
  if hasLen v && (lenOf v == 0) then CellVal.none else v

theorem convertEmptySized_eq_map (ty : String) (h : ¬ ty = "bool") (cells : List CellVal) :
    convertEmptySized ty cells = cells.map convCell := by
  unfold convertEmptySized convCell
  rw [if_neg h]

theorem string_eq_empty_of_length_eq_zero : ∀ {s : String}, s.length = 0 → s = ""
  | ⟨[]⟩, _ => rfl
  | ⟨c :: cs⟩, h => absurd (h : (c :: cs).length = 0) (by simp)

theorem convCell_of_truthy {v : CellVal} (h : truthy v = true) : convCell v = v := by
  unfold convCell
  cases v with
  | str s =>
    rw [if_neg]
    intro hc
    have hlen : s.length = 0 := by simpa [hasLen, lenOf] using hc
    have : s = "" := string_eq_empty_of_length_eq_zero hlen
    subst this
    simp [truthy] at h
  | pylist es =>
    rw [if_neg]
    intro hc
    have hlen : es.length = 0 := by simpa [hasLen, lenOf] using hc
    have : es = [] := List.length_eq_zero.mp hlen
    subst this
    simp [truthy] at h
  | none => rfl
  | int n => rfl
  | boolean b => rfl
  | date d dt => rfl

theorem truthy_convCell_of_falsy {v : CellVal} (h : truthy v = false) :
    (if truthy (convCell v) then convCell v else CellVal.none) = CellVal.none := by
  unfold convCell
  by_cases hc : (hasLen v && (lenOf v == 0)) = true
  · rw [if_pos hc]
    rfl
  · rw [if_neg hc, if_neg (by rw [h]; exact Bool.false_ne_true)]

/-- A value of the original column is flagged by the id/reference length
check exactly when its image under the falsy-sized conversion is: the
conversion only rewrites falsy values to None and both are unflagged. -/
theorem truthy_of_falsy_conv {v : CellVal} (hc : (hasLen v && (lenOf v == 0)) = true) :
    truthy v = false := by
  cases v with
  | str s =>
    have hlen : s.length = 0 := by simpa [hasLen, lenOf] using hc
    have : s = "" := string_eq_empty_of_length_eq_zero hlen
    subst this
    rfl
  | pylist es =>
    have hlen : es.length = 0 := by simpa [hasLen, lenOf] using hc
    have : es = [] := List.length_eq_zero.mp hlen
    subst this
    rfl
  | none => rfl
  | int n => simp [hasLen] at hc
  | boolean b => simp [hasLen] at hc
  | date d dt => simp [hasLen] at hc

theorem flaggedId_convCell (v : CellVal) : flaggedId (convCell v) = flaggedId v := by
  unfold convCell
  by_cases hc : (hasLen v && (lenOf v == 0)) = true
  · rw [if_pos hc]
    have hf : truthy v = false := truthy_of_falsy_conv hc
    show false = flaggedId v
    unfold flaggedId
    rw [hf]
    rfl
  · rw [if_neg hc]

/-- Characterization of the id/reference branch of processColumn when no
unhashable list is present. -/
theorem processColumn_idref (fd : FieldDef) (name : String) (cells : List CellVal)
    (htype : fd.type_ = "id" ∨ fd.type_ = "reference")
    (hnolist : ((convertEmptySized fd.type_ cells).filter fun v =>
      !(v == CellVal.none)).any isList = false) :
    processColumn fd name cells
      = .ok (idRefColumn fd.type_ name (convertEmptySized fd.type_ cells)) := by
  unfold processColumn
  rw [if_neg (by rw [hnolist]; exact Bool.false_ne_true)]
  rcases htype with h | h <;>
    rw [if_neg (by rw [h]; decide), if_neg (by rw [h]; decide), if_pos (by rw [h]; decide)]

theorem processColumn_error_of_list (fd : FieldDef) (name : String) (cells : List CellVal)
    (hl : ((convertEmptySized fd.type_ cells).filter fun v =>
      !(v == CellVal.none)).any isList = true) :
    ∃ e, processColumn fd name cells = .error e := by
  refine ⟨"Unhashable type detected in field " ++ name, ?_⟩
  unfold processColumn
  rw [if_pos hl]

/-- Helper shared by C7 and C8: a dataframe containing a column that makes
the loop record a fatal error (an unknown non-bookkeeping column, or a known
column whose processing is fatal with an error recorded) makes the loop
either raise or return a fatal result with a non-empty error list. -/
theorem normalizeCollect_unknown_fatal (defs : List (String × FieldDef)) :
    ∀ (df : List (String × List CellVal)) (name : String) (cells : List CellVal),
    (name, cells) ∈ df → lookupKV defs name = Option.none →
    ¬ name = "quorum_side_primary_key" →
    (∃ e, normalizeCollect defs df = .error e)
    ∨ ∃ o es f, normalizeCollect defs df = .ok (o, es, f) ∧ f = true ∧ es ≠ [] := by
  intro df
  induction df with
  | nil => intro name cells hmem _ _; cases hmem
  | cons hd rest ih =>
    obtain ⟨n, cs⟩ := hd
    intro name cells hmem hlk hq
    rw [normalizeCollect]
    rcases List.mem_cons.mp hmem with heq | hmem2
    · obtain ⟨h1, h2⟩ := Prod.mk.injEq .. ▸ heq
      subst h1
      subst h2
      simp only [hlk]
      rw [if_neg hq]
      cases hrest : normalizeCollect defs rest with
      | error e => exact Or.inl ⟨e, rfl⟩
      | ok v =>
        obtain ⟨df2, es2, f2⟩ := v
        exact Or.inr ⟨(name, cells) :: df2, NormError.badColumn name :: es2, true,
          rfl, rfl, by simp⟩
    · cases hlkh : lookupKV defs n with
      | none =>
        simp only [hlkh]
        by_cases hqn : n = "quorum_side_primary_key"
        · rw [if_pos hqn]
          rcases ih name cells hmem2 hlk hq with ⟨e, he⟩ | ⟨o, es, f, hok, hf, hes⟩
          · exact Or.inl ⟨e, by rw [he]; rfl⟩
          · exact Or.inr ⟨(n, cs) :: o, es, f, by rw [hok]; rfl, hf, hes⟩
        · rw [if_neg hqn]
          cases hrest : normalizeCollect defs rest with
          | error e => exact Or.inl ⟨e, rfl⟩
          | ok v =>
            obtain ⟨df2, es2, f2⟩ := v
            exact Or.inr ⟨(n, cs) :: df2, NormError.badColumn n :: es2, true,
              rfl, rfl, by simp⟩
      | some fd =>
        simp only [hlkh]
        cases hcol : processColumn fd n cs with
        | error e => exact Or.inl ⟨e, rfl⟩
        | ok v =>
          obtain ⟨c2, es1, f1⟩ := v
          rcases ih name cells hmem2 hlk hq with ⟨e, he⟩ | ⟨o, es, f, hok, hf, hes⟩
          · exact Or.inl ⟨e, by rw [he]; rfl⟩
          · exact Or.inr ⟨(n, c2) :: o, es1 ++ es, f1 || f,
              by rw [hok]; rfl, by rw [hf]; simp, by simp [hes]⟩

/-- Helper for C7: a known column whose processing succeeds with a fatal flag
and a recorded error makes the loop raise or return a fatal result. -/
theorem normalizeCollect_column_fatal (defs : List (String × FieldDef)) :
    ∀ (df : List (String × List CellVal)) (name : String) (cells : List CellVal)
      (fd : FieldDef) (o1 : List CellVal) (es1 : List NormError),
    (name, cells) ∈ df → lookupKV defs name = some fd →
    processColumn fd name cells = .ok (o1, es1, true) → es1 ≠ [] →
    (∃ e, normalizeCollect defs df = .error e)
    ∨ ∃ o es f, normalizeCollect defs df = .ok (o, es, f) ∧ f = true ∧ es ≠ [] := by
  intro df
  induction df with
  | nil => intro name cells fd o1 es1 hmem _ _ _; cases hmem
  | cons hd rest ih =>
    obtain ⟨n, cs⟩ := hd
    intro name cells fd o1 es1 hmem hlk hcol hes1
    rw [normalizeCollect]
    rcases List.mem_cons.mp hmem with heq | hmem2
    · obtain ⟨h1, h2⟩ := Prod.mk.injEq .. ▸ heq
      subst h1
      subst h2
      simp only [hlk]
      cases hrest : normalizeCollect defs rest with
      | error e => exact Or.inl ⟨e, by rw [hcol]; rfl⟩
      | ok v =>
        obtain ⟨df2, es2, f2⟩ := v
        exact Or.inr ⟨(name, o1) :: df2, es1 ++ es2, true || f2,
          by rw [hcol]; rfl, by simp, by simp [hes1]⟩
    · cases hlkh : lookupKV defs n with
      | none =>
        simp only [hlkh]
        by_cases hqn : n = "quorum_side_primary_key"
        · rw [if_pos hqn]
          rcases ih name cells fd o1 es1 hmem2 hlk hcol hes1 with
            ⟨e, he⟩ | ⟨o, es, f, hok, hf, hes⟩
          · exact Or.inl ⟨e, by rw [he]; rfl⟩
          · exact Or.inr ⟨(n, cs) :: o, es, f, by rw [hok]; rfl, hf, hes⟩
        · rw [if_neg hqn]
          cases hrest : normalizeCollect defs rest with
          | error e => exact Or.inl ⟨e, rfl⟩
          | ok v =>
            obtain ⟨df2, es2, f2⟩ := v
            exact Or.inr ⟨(n, cs) :: df2, NormError.badColumn n :: es2, true,
              rfl, rfl, by simp⟩
      | some fd2 =>
        simp only [hlkh]
        cases hcol2 : processColumn fd2 n cs with
        | error e => exact Or.inl ⟨e, rfl⟩
        | ok v =>
          obtain ⟨c2, es2, f2⟩ := v
          rcases ih name cells fd o1 es1 hmem2 hlk hcol hes1 with
            ⟨e, he⟩ | ⟨o, es, f, hok, hf, hes⟩
          · exact Or.inl ⟨e, by rw [he]; rfl⟩
          · exact Or.inr ⟨(n, c2) :: o, es2 ++ es, f2 || f,
              by rw [hok]; rfl, by rw [hf]; simp, by simp [hes]⟩

/-- Helper: a raising-or-fatal loop result makes normalize_sf_field_types
raise. -/
theorem normalize_error_of_collect (df : List (String × List CellVal))
    (defs : List (String × FieldDef))
    (h : (∃ e, normalizeCollect defs df = .error e)
      ∨ ∃ o es f, normalizeCollect defs df = .ok (o, es, f) ∧ f = true ∧ es ≠ []) :
    ∃ e, normalize_sf_field_types df defs = .error e := by
  unfold normalize_sf_field_types
  rcases h with ⟨e, he⟩ | ⟨o, es, f, hok, hf, hes⟩
  · rw [he]
    exact ⟨e, rfl⟩
  · rw [hok]
    subst hf
    refine ⟨"Data cannot be normalized to SF", ?_⟩
    show (if es ≠ [] ∧ true = true then Except.error "Data cannot be normalized to SF"
      else Except.ok o) = Except.error "Data cannot be normalized to SF"
    rw [if_pos ⟨hes, rfl⟩]

theorem flaggedId_iff (v : CellVal) :
    flaggedId v = true ↔ truthy v = true ∧ (pyStr v).length ∉ ([0, 15, 18] : List Nat) := by
  unfold flaggedId
  by_cases ht : truthy v = true
  · rw [if_pos ht]
    simp [ht, List.mem_cons, not_or]
    exact and_assoc
  · rw [if_neg ht]
    simp only [Bool.false_eq_true, false_iff, not_and]
    intro h
    exact absurd h ht

/-- C7 amended: in an id or reference column, every truthy value whose
textual length is not 0, 15 or 18 characters is reported in a badIdLength
validation error; every falsy value (None, the empty string, zero, False) is
normalized to absent rather than submitted; the fatal flag is set exactly
when the column type is id (the match identifier) and such a flagged value
exists, in which case the whole normalization raises; on a reference column
the flag stays clear (non-fatal). -/
theorem normalize_id_reference_amended (fd : FieldDef) (name : String)
    (cells out : List CellVal) (errs : List NormError) (fat : Bool)
    (htype : fd.type_ = "id" ∨ fd.type_ = "reference")
    (hok : processColumn fd name cells = .ok (out, errs, fat)) :
    (∀ v ∈ cells, truthy v = true → (pyStr v).length ∉ ([0, 15, 18] : List Nat) →
      ∃ vs, NormError.badIdLength name vs ∈ errs ∧ v ∈ vs)
    ∧ out.length = cells.length
    ∧ (∀ i (hi : i < cells.length) (ho : i < out.length),
        truthy (cells.get ⟨i, hi⟩) = false → out.get ⟨i, ho⟩ = CellVal.none)
    ∧ (fat = true ↔ fd.type_ = "id" ∧ ∃ v ∈ cells, truthy v = true
        ∧ (pyStr v).length ∉ ([0, 15, 18] : List Nat))
    ∧ (∀ (defs : List (String × FieldDef)) (df : List (String × List CellVal)),
        (name, cells) ∈ df → lookupKV defs name = some fd → fat = true →
        ∃ e, normalize_sf_field_types df defs = .error e) := by
  have hok0 := hok
  have htyb : ¬ fd.type_ = "bool" := by
    rcases htype with h | h <;> rw [h] <;> decide
  have hnolist : ((convertEmptySized fd.type_ cells).filter fun v =>
      !(v == CellVal.none)).any isList = false := by
    by_cases hl : ((convertEmptySized fd.type_ cells).filter fun v =>
        !(v == CellVal.none)).any isList = true
    · obtain ⟨e, he⟩ := processColumn_error_of_list fd name cells hl
      rw [he] at hok
      cases hok
    · exact Bool.eq_false_iff.mpr hl
  have hchar := processColumn_idref fd name cells htype hnolist
  rw [hchar] at hok
  injection hok with hok
  unfold idRefColumn at hok
  rw [convertEmptySized_eq_map fd.type_ htyb cells] at hok
  obtain ⟨hout, hrest⟩ := Prod.mk.injEq .. ▸ hok
  obtain ⟨herrs, hfat⟩ := Prod.mk.injEq .. ▸ hrest
  subst hout
  subst herrs
  subst hfat
  have hmemW : ∀ v ∈ cells, truthy v = true →
      (pyStr v).length ∉ ([0, 15, 18] : List Nat) →
      v ∈ pdUnique ((cells.map convCell).filter flaggedId) := by
    intro v hv ht hlen
    have hfv : flaggedId v = true := (flaggedId_iff v).mpr ⟨ht, hlen⟩
    have hv1 : convCell v ∈ cells.map convCell := List.mem_map_of_mem _ hv
    rw [convCell_of_truthy ht] at hv1
    exact (mem_pdUnique _ _).mpr (List.mem_filter.mpr ⟨hv1, hfv⟩)
  have hWex : ∀ v ∈ pdUnique ((cells.map convCell).filter flaggedId),
      ∃ u ∈ cells, truthy u = true ∧ (pyStr u).length ∉ ([0, 15, 18] : List Nat) := by
    intro v hv
    have hvf := (mem_pdUnique _ _).mp hv
    obtain ⟨hvm, hflag⟩ := List.mem_filter.mp hvf
    obtain ⟨u, hu, hconv⟩ := List.mem_map.mp hvm
    have hfu : flaggedId u = true := by
      rw [← flaggedId_convCell u, hconv]
      exact hflag
    obtain ⟨ht, hlen⟩ := (flaggedId_iff u).mp hfu
    exact ⟨u, hu, ht, hlen⟩
  refine ⟨?_, ?_, ?_, ?_, ?_⟩
  · intro v hv ht hlen
    have hvu := hmemW v hv ht hlen
    have hWne : pdUnique ((cells.map convCell).filter flaggedId) ≠ [] :=
      List.ne_nil_of_mem hvu
    refine ⟨pdUnique ((cells.map convCell).filter flaggedId), ?_, hvu⟩
    rw [if_neg hWne]
    exact List.mem_cons_self _ _
  · simp
  · intro i hi ho hfalse
    simp only [List.get_eq_getElem, List.getElem_map]
    rw [List.get_eq_getElem] at hfalse
    exact truthy_convCell_of_falsy hfalse
  · constructor
    · intro h
      obtain ⟨h1, h2⟩ := (Bool.and_eq_true _ _) ▸ h
      have hWne : pdUnique ((cells.map convCell).filter flaggedId) ≠ [] := by
        intro hnil
        rw [hnil] at h1
        cases h1
      obtain ⟨v, hv⟩ := List.exists_mem_of_ne_nil _ hWne
      exact ⟨by rwa [beq_iff_eq] at h2, hWex v hv⟩
    · rintro ⟨hid, v, hv, ht, hlen⟩
      have hvu := hmemW v hv ht hlen
      have hWne : pdUnique ((cells.map convCell).filter flaggedId) ≠ [] :=
        List.ne_nil_of_mem hvu
      simp only [Bool.and_eq_true]
      refine ⟨?_, ?_⟩
      · cases hW2 : pdUnique ((cells.map convCell).filter flaggedId) with
        | nil => exact absurd hW2 hWne
        | cons a l => rfl
      · rw [hid]
        rfl
  · intro defs df hmem hlk hf
    obtain ⟨h1, -⟩ := (Bool.and_eq_true _ _) ▸ hf
    have hWne : pdUnique ((cells.map convCell).filter flaggedId) ≠ [] := by
      intro hnil
      rw [hnil] at h1
      cases h1
    have herrs2 : (if pdUnique ((cells.map convCell).filter flaggedId) = [] then []
        else [NormError.badIdLength name
          (pdUnique ((cells.map convCell).filter flaggedId))]) ≠ [] := by
      rw [if_neg hWne]
      exact List.cons_ne_nil _ _
    rw [hf] at hok0
    exact normalize_error_of_collect df defs
      (normalizeCollect_column_fatal defs df name cells fd _ _ hmem hlk hok0 herrs2)

/-- C7 counterexample: the integer zero in a reference column is a non-absent
value whose textual rendering has length one — not 0, 15 or 18 — yet the
flagging lambda skips every falsy value, so no validation error is reported
and the value is silently normalized to absent instead. -/
theorem normalize_id_reference_counterexample :
    processColumn ⟨"reference", 18, Option.none⟩ "Ref__c" [CellVal.int 0]
      = Except.ok ([CellVal.none], [], false)
    ∧ CellVal.int 0 ≠ CellVal.none
    ∧ (pyStr (CellVal.int 0)).length = 1 := by
  refine ⟨rfl, by decide, rfl⟩

/-- Witness for the amended C7 at a concrete input: a three-character value
in the match-identifier column is reported. -/
theorem normalize_id_reference_amended_witness :
    ∃ vs, NormError.badIdLength "Id" vs ∈ [NormError.badIdLength "Id" [CellVal.str "abc"]]
      ∧ CellVal.str "abc" ∈ vs := by
  have h := normalize_id_reference_amended ⟨"id", 18, Option.none⟩ "Id" [CellVal.str "abc"]
      [CellVal.str "abc"] [NormError.badIdLength "Id" [CellVal.str "abc"]] true
      (Or.inl rfl) (by decide)
  exact h.1 (CellVal.str "abc") (by decide) (by decide) (by decide)

/-! ## Claim C8 -/

theorem lookupKV_stripQuorumKey (r : PyRec) :
    lookupKV (stripQuorumKey r) "quorum_side_primary_key" = Option.none := by
  induction r with
  | nil => rfl
  | cons kv rest ih =>
    obtain ⟨k, v⟩ := kv
    unfold stripQuorumKey at ih ⊢
    by_cases hk : k = "quorum_side_primary_key"
    · rw [List.filter_cons, if_neg (by simp [hk])]
      exact ih
    · rw [List.filter_cons, if_pos (by simp [hk])]
      rw [lookupKV, if_neg hk]
      exact ih

/-- C8: a dataframe column absent from the external schema makes
normalization raise (the batch cannot be submitted), with one exception: the
internal bookkeeping column quorum_side_primary_key is skipped by validation
(no error, column untouched) and stripped from every record before
transmission by the upsert chunk. -/
theorem normalize_unknown_column_fatal
    (defs : List (String × FieldDef)) (df : List (String × List CellVal))
    (name : String) (cells qcells : List CellVal) (chunk : List PyRec) :
    ((name, cells) ∈ df → lookupKV defs name = Option.none →
      ¬ name = "quorum_side_primary_key" → ∃ e, normalize_sf_field_types df defs = .error e)
    ∧ (lookupKV defs "quorum_side_primary_key" = Option.none →
        normalizeCollect defs [("quorum_side_primary_key", qcells)]
          = .ok ([("quorum_side_primary_key", qcells)], [], false))
    ∧ ∀ r ∈ chunk, lookupKV (stripQuorumKey r) "quorum_side_primary_key" = Option.none := by
  refine ⟨?_, ?_, ?_⟩
  · intro hmem hlk hq
    exact normalize_error_of_collect df defs
      (normalizeCollect_unknown_fatal defs df name cells hmem hlk hq)
  · intro hlkq
    rw [normalizeCollect]
    simp only [hlkq]
    rw [if_pos trivial]
    rfl
  · intro r _
    exact lookupKV_stripQuorumKey r

/-- Witness for C8 at concrete inputs: a bogus column raises; a bookkeeping
column passes untouched with no error; the bookkeeping key is stripped from a
concrete record. -/
theorem normalize_unknown_column_fatal_witness :
    (∃ e, normalize_sf_field_types [("Bogus", [CellVal.str "x"])]
        [("Name", ⟨"string", 80, Option.none⟩)] = .error e)
    ∧ normalizeCollect [("Name", ⟨"string", 80, Option.none⟩)]
        [("quorum_side_primary_key", [CellVal.int 5])]
        = .ok ([("quorum_side_primary_key", [CellVal.int 5])], [], false)
    ∧ ∀ r ∈ [[("quorum_side_primary_key", CellVal.int 5), ("Name", CellVal.str "n")]],
        lookupKV (stripQuorumKey r) "quorum_side_primary_key" = Option.none := by
  have h := normalize_unknown_column_fatal [("Name", ⟨"string", 80, Option.none⟩)]
      [("Bogus", [CellVal.str "x"])] "Bogus" [CellVal.str "x"] [CellVal.int 5]
      [[("quorum_side_primary_key", CellVal.int 5), ("Name", CellVal.str "n")]]
  exact ⟨h.1 (by decide) (by decide) (by decide), h.2.1 (by decide), h.2.2⟩
